import Mathlib

/- Formal model of the LeeWave RO reporter analytics (src/app.py): the KPI
calculator, the stage mass-balance propagator, the max-safe-output solver,
the maintenance-note rule engine, the trend forecaster and the daily-row
upsert, together with theorems settling the specification claims.
Real-valued quantities of the Python source are modelled as rationals. -/

/-- Model of `safe_div` (src/app.py line 388): the divisor is floored to the
epsilon 1e-9 when it equals 0, and the division is performed otherwise. -/
def safe_div (a b : ℚ) : ℚ :=
  a / (if b = 0 then 1 / 1000000000 else b)

/-- Model of `kpi_recovery_pct` (src/app.py line 389):
clamp(safe_div(product, feed) * 100, 0, 100). -/
def kpi_recovery_pct (product_lpm feed_lpm : ℚ) : ℚ :=
  max 0 (min 100 (safe_div product_lpm feed_lpm * 100))

/-- Model of `kpi_rejection_pct` (src/app.py lines 390-392): None when the
product TDS is absent or the upstream TDS is absent or equal to 0; otherwise
clamp((1 - prod / max(feed, 1e-6)) * 100, 0, 100). -/
def kpi_rejection_pct (prod_tds feed_tds : Option ℚ) : Option ℚ :=
  match prod_tds, feed_tds with
  | none, _ => none
  | _, none => none
  | some p, some f =>
      if f = 0 then none
      else some (max 0 (min 100 ((1 - p / max f (1 / 1000000)) * 100)))

/-- Claim C2 counterexample: the claim asserts recovery is 0 whenever
feed_flow <= 0, but at feed_flow = 0 and product_flow = 10 the code floors
the divisor to 1e-9 and the clamped result is 100, not 0. -/
theorem kpi_recovery_counterexample :
    kpi_recovery_pct 10 0 = 100 ∧ kpi_recovery_pct 10 0 ≠ 0 := by
  constructor
  · unfold kpi_recovery_pct safe_div
    norm_num
  · unfold kpi_recovery_pct safe_div
    norm_num

/-- Claim C2, amended: for feed_flow > 0 the recovery equals
clamp(100 * product_flow / feed_flow, 0, 100), lies in [0, 100], is 100 when
product_flow = feed_flow and 0 when product_flow = 0; for feed_flow = 0 the
divisor is replaced by the epsilon 1e-9, so the result is
clamp(100 * product_flow * 10^9, 0, 100) (not 0); for feed_flow < 0 and
product_flow >= 0 the result is 0. -/
theorem kpi_recovery_amended :
    (∀ p f : ℚ, 0 < f →
        kpi_recovery_pct p f = max 0 (min 100 (p / f * 100))
        ∧ 0 ≤ kpi_recovery_pct p f
        ∧ kpi_recovery_pct p f ≤ 100
        ∧ (p = f → kpi_recovery_pct p f = 100)
        ∧ (p = 0 → kpi_recovery_pct p f = 0))
    ∧ (∀ p : ℚ, kpi_recovery_pct p 0 = max 0 (min 100 (p * 1000000000 * 100)))
    ∧ (∀ p f : ℚ, f < 0 → 0 ≤ p → kpi_recovery_pct p f = 0) := by
  refine ⟨fun p f hf => ?_, fun p => ?_, fun p f hf hp => ?_⟩
  · have hne : f ≠ 0 := ne_of_gt hf
    have hdef : kpi_recovery_pct p f = max 0 (min 100 (p / f * 100)) := by
      unfold kpi_recovery_pct safe_div
      rw [if_neg hne]
    refine ⟨hdef, ?_, ?_, ?_, ?_⟩
    · rw [hdef]; exact le_max_left 0 _
    · rw [hdef]
      exact max_le (by norm_num) (min_le_left 100 _)
    · intro hpf
      rw [hdef, hpf, div_self hne]
      norm_num
    · intro hp0
      rw [hdef, hp0]
      norm_num
  · unfold kpi_recovery_pct safe_div
    norm_num [div_eq_mul_inv]
  · have hne : f ≠ 0 := ne_of_lt hf
    have hq : p / f * 100 ≤ 0 := by
      have : p / f ≤ 0 := div_nonpos_of_nonneg_of_nonpos hp (le_of_lt hf)
      nlinarith
    unfold kpi_recovery_pct safe_div
    rw [if_neg hne]
    have h1 : min 100 (p / f * 100) ≤ 0 := le_trans (min_le_right _ _) hq
    exact le_antisymm (by simpa using h1) (le_max_left 0 _)

/-- Claim C2 witness facts for the amended theorem: concrete instances of the
three regimes. -/
theorem kpi_recovery_amended_witness :
    kpi_recovery_pct 100 100 = 100 ∧ kpi_recovery_pct 0 100 = 0
    ∧ kpi_recovery_pct 10 (-5) = 0 := by
  refine ⟨(kpi_recovery_amended.1 100 100 (by norm_num)).2.2.2.1 rfl,
          (kpi_recovery_amended.1 0 100 (by norm_num)).2.2.2.2 rfl,
          kpi_recovery_amended.2.2 10 (-5) (by norm_num) (by norm_num)⟩

/-- Claim C3 counterexample: the claim asserts rejection is absent whenever
upstream_tds <= 0, but at product_tds = 50 and upstream_tds = -1 the code
does not detect the nonpositive upstream (it only checks equality with 0),
floors the divisor to 1e-6, and returns the defined value 0. -/
theorem kpi_rejection_counterexample :
    kpi_rejection_pct (some 50) (some (-1)) = some 0
    ∧ kpi_rejection_pct (some 50) (some (-1)) ≠ none := by
  have h : kpi_rejection_pct (some 50) (some (-1)) = some 0 := by
    simp only [kpi_rejection_pct]
    norm_num
  exact ⟨h, by rw [h]; exact Option.some_ne_none 0⟩

/-- Claim C3, amended: rejection is absent exactly when the product TDS is
absent or the upstream TDS is absent or equal to 0; otherwise it equals
clamp(100 * (1 - product_tds / max(upstream_tds, 1e-6)), 0, 100), which for
upstream_tds >= 1e-6 coincides with the claimed formula
clamp(100 * (1 - product_tds / upstream_tds), 0, 100); the defined value
always lies in [0, 100], is 0 at product_tds = upstream_tds >= 1e-6, and is
100 at product_tds = 0 with upstream_tds > 0. -/
theorem kpi_rejection_amended :
    (∀ u : Option ℚ, kpi_rejection_pct none u = none)
    ∧ (∀ p : ℚ, kpi_rejection_pct (some p) none = none)
    ∧ (∀ p : ℚ, kpi_rejection_pct (some p) (some 0) = none)
    ∧ (∀ p u : ℚ, u ≠ 0 →
        kpi_rejection_pct (some p) (some u)
          = some (max 0 (min 100 ((1 - p / max u (1 / 1000000)) * 100))))
    ∧ (∀ p u : ℚ, 1 / 1000000 ≤ u →
        kpi_rejection_pct (some p) (some u)
          = some (max 0 (min 100 ((1 - p / u) * 100))))
    ∧ (∀ p u : ℚ, u ≠ 0 →
        ∃ r, kpi_rejection_pct (some p) (some u) = some r ∧ 0 ≤ r ∧ r ≤ 100)
    ∧ (∀ u : ℚ, 1 / 1000000 ≤ u → kpi_rejection_pct (some u) (some u) = some 0)
    ∧ (∀ u : ℚ, 0 < u → kpi_rejection_pct (some 0) (some u) = some 100) := by
  refine ⟨fun u => by cases u <;> rfl, fun p => rfl, fun p => by
    simp only [kpi_rejection_pct]; norm_num, fun p u hu => ?_, fun p u hu => ?_,
    fun p u hu => ?_, fun u hu => ?_, fun u hu => ?_⟩
  · simp only [kpi_rejection_pct]
    rw [if_neg hu]
  · have hne : u ≠ 0 := by
      intro h; rw [h] at hu; norm_num at hu
    have hmax : max u (1 / 1000000 : ℚ) = u := max_eq_left hu
    simp only [kpi_rejection_pct]
    rw [if_neg hne, hmax]
  · refine ⟨max 0 (min 100 ((1 - p / max u (1 / 1000000)) * 100)), ?_, ?_, ?_⟩
    · simp only [kpi_rejection_pct]
      rw [if_neg hu]
    · exact le_max_left 0 _
    · exact max_le (by norm_num) (min_le_left 100 _)
  · have hne : u ≠ 0 := by
      intro h; rw [h] at hu; norm_num at hu
    have hmax : max u (1 / 1000000 : ℚ) = u := max_eq_left hu
    simp only [kpi_rejection_pct]
    rw [if_neg hne, hmax, div_self hne]
    norm_num
  · have hne : u ≠ 0 := ne_of_gt hu
    simp only [kpi_rejection_pct]
    rw [if_neg hne]
    norm_num

/-- Claim C3 witness facts for the amended theorem: concrete instances with a
nonzero upstream TDS. -/
theorem kpi_rejection_amended_witness :
    kpi_rejection_pct (some 100) (some 1000)
      = some (max 0 (min 100 ((1 - (100 : ℚ) / 1000) * 100)))
    ∧ kpi_rejection_pct (some 1000) (some 1000) = some 0
    ∧ kpi_rejection_pct (some 0) (some 1000) = some 100 := by
  refine ⟨kpi_rejection_amended.2.2.2.2.1 100 1000 (by norm_num),
          kpi_rejection_amended.2.2.2.2.2.2.1 1000 (by norm_num),
          kpi_rejection_amended.2.2.2.2.2.2.2 1000 (by norm_num)⟩

/-- Model of the Python truthiness fallback `x or d` used on float-or-None
KPI values in src/app.py: an absent value or the float 0.0 both yield the
default `d`; any other value passes through. -/
def py_or (o : Option ℚ) (d : ℚ) : ℚ :=
  match o with
  | none => d
  | some v => if v = 0 then d else v

/-- Model of the `salt_passage_pct` row field (src/app.py lines 560 and 596):
`100.0 - (rejection_pct or 0.0)`, stored unconditionally as a float. -/
def row_salt_passage_pct (rejection_pct : Option ℚ) : Option ℚ :=
  some (100 - py_or rejection_pct 0)

/-- Claim C7 counterexample: the claim asserts salt passage is absent when
rejection is undefined, but the code substitutes 0 for an absent rejection
and stores the numeric value 100.0. -/
theorem salt_passage_counterexample :
    row_salt_passage_pct none = some 100 ∧ row_salt_passage_pct none ≠ none := by
  have h : row_salt_passage_pct none = some 100 := by
    simp only [row_salt_passage_pct, py_or]
    norm_num
  exact ⟨h, by rw [h]; exact Option.some_ne_none 100⟩

/-- Claim C7, amended: salt passage equals 100 minus the rejection whenever
the rejection is defined, and equals the numeric value 100.0 (never an
absent value) when the rejection is undefined. -/
theorem salt_passage_amended :
    (∀ r : ℚ, row_salt_passage_pct (some r) = some (100 - r))
    ∧ row_salt_passage_pct none = some 100 := by
  constructor
  · intro r
    simp only [row_salt_passage_pct, py_or]
    by_cases hr : r = 0
    · simp [hr]
    · simp [hr]
  · simp only [row_salt_passage_pct, py_or]
    norm_num

/-- Model of the `limits` threshold dictionary shape used by
`maintenance_note_from_row` (src/app.py lines 414-417). -/
structure Limits where
  product_tds_max : ℚ
  cartridge_dp_max : ℚ
  vessel_dp_max : ℚ
  rejection_min : ℚ
  recovery_target : ℚ
  recovery_high_margin : ℚ

/-- Model of `DEFAULT_LIMITS` (src/app.py lines 414-417). -/
def DEFAULT_LIMITS : Limits :=
  { product_tds_max := 60, cartridge_dp_max := 7/10, vessel_dp_max := 3/2,
    rejection_min := 60, recovery_target := 70, recovery_high_margin := 3 }

/-- The fields of the KPI row read by `maintenance_note_from_row`; each may
be absent (None or a missing key in the Python dict). -/
structure NoteRow where
  rejection_pct : Option ℚ
  product_tds : Option ℚ
  cartridge_dp : Option ℚ
  vessel_dp : Option ℚ
  feed_vs_sum_ok : Option Bool

/-- Recommendation emitted for low rejection (src/app.py line 422). -/
def tip_rejection : String :=
  "Rejection below target → inspect for fouling/bypass; plan alkaline+acid CIP."

/-- Recommendation emitted for high product TDS (src/app.py line 424). -/
def tip_product_tds : String :=
  "Product TDS high → check integrity (O-rings, interconnects), tighten concentrate valve."

/-- Recommendation emitted for high cartridge pressure drop (line 426). -/
def tip_cartridge : String :=
  "Cartridge ΔP high → replace cartridge / check clogging upstream."

/-- Recommendation emitted for high vessel pressure drop (line 428). -/
def tip_vessel : String :=
  "Vessel ΔP high → channeling/scaling risk; verify brine flow & antiscalant."

/-- Recommendation emitted for a flow imbalance (src/app.py line 430). -/
def tip_flow : String :=
  "Flow imbalance noted → verify flowmeters & throttling set-points."

/-- Default healthy note emitted when no rule triggers (src/app.py line 432). -/
def tip_healthy : String :=
  "Inputs vs outputs look healthy today. Keep PM on schedule (cartridge & CIP planning)."

/-- Model of `maintenance_note_from_row` (src/app.py lines 419-433): the
tips list is grown by five rules in a fixed order, a default note is used
when the list is empty, and the result joins the tips with spaces. -/
def maintenance_note_from_row (row : NoteRow) (limits : Limits) : String :=
  let tips : List String := []
  let tips := if py_or row.rejection_pct 100 < limits.rejection_min
    then tips ++ [tip_rejection] else tips
  let tips := if py_or row.product_tds 0 > limits.product_tds_max
    then tips ++ [tip_product_tds] else tips
  let tips := if py_or row.cartridge_dp 0 > limits.cartridge_dp_max
    then tips ++ [tip_cartridge] else tips
  let tips := if py_or row.vessel_dp 0 > limits.vessel_dp_max
    then tips ++ [tip_vessel] else tips
  let tips := if row.feed_vs_sum_ok.getD true = false
    then tips ++ [tip_flow] else tips
  let tips := if tips.isEmpty then [tip_healthy] else tips
  String.intercalate " " tips

/-- The rule table of the maintenance-note engine, written the way the spec
describes it: a fixed ordered list of trigger-recommendation pairs. -/
def spec_note_rules (row : NoteRow) (limits : Limits) : List (Bool × String) :=
  [(decide (py_or row.rejection_pct 100 < limits.rejection_min), tip_rejection),
   (decide (py_or row.product_tds 0 > limits.product_tds_max), tip_product_tds),
   (decide (py_or row.cartridge_dp 0 > limits.cartridge_dp_max), tip_cartridge),
   (decide (py_or row.vessel_dp 0 > limits.vessel_dp_max), tip_vessel),
   (decide (row.feed_vs_sum_ok.getD true = false), tip_flow)]

/-- Claim C9: for every KPI row, the maintenance note is exactly the
space-joined concatenation of the triggered recommendations, taken from the
fixed ordered rule table (rejection, product TDS, cartridge ΔP, vessel ΔP,
flow imbalance), and it is the single default healthy message when no rule
triggers. -/
theorem maintenance_note_structure :
    ∀ (row : NoteRow) (limits : Limits),
      maintenance_note_from_row row limits =
        (let trig := ((spec_note_rules row limits).filter (fun p => p.1)).map
          (fun p => p.2)
         if trig.isEmpty then tip_healthy else String.intercalate " " trig) := by
  intro row limits
  simp only [maintenance_note_from_row, spec_note_rules]
  by_cases h1 : py_or row.rejection_pct 100 < limits.rejection_min <;>
    by_cases h2 : py_or row.product_tds 0 > limits.product_tds_max <;>
      by_cases h3 : py_or row.cartridge_dp 0 > limits.cartridge_dp_max <;>
        by_cases h4 : py_or row.vessel_dp 0 > limits.vessel_dp_max <;>
          by_cases h5 : row.feed_vs_sum_ok.getD true = false <;>
            (simp [h1, h2, h3, h4, h5, String.intercalate]; try rfl)

/-- Claim C10: the rule engine substitutes 100 for an absent rejection and 0
for an absent product TDS, cartridge ΔP or vessel ΔP, so a row in which all
of these are absent and the flow-balance flag is true or missing always
yields the default healthy note. -/
theorem maintenance_note_absent_defaults :
    ∀ row : NoteRow, row.rejection_pct = none → row.product_tds = none →
      row.cartridge_dp = none → row.vessel_dp = none →
      row.feed_vs_sum_ok ≠ some false →
      maintenance_note_from_row row DEFAULT_LIMITS = tip_healthy := by
  intro row h1 h2 h3 h4 h5
  have hfeed : row.feed_vs_sum_ok.getD true = true := by
    cases hfs : row.feed_vs_sum_ok with
    | none => rfl
    | some b =>
        cases b with
        | false => exact absurd hfs h5
        | true => rfl
  simp only [maintenance_note_from_row, h1, h2, h3, h4, hfeed, py_or]
  norm_num [DEFAULT_LIMITS, String.intercalate]
  rfl

/-- Claim C10 witness: the all-absent row with a missing flow flag yields
the default healthy note. -/
theorem maintenance_note_absent_defaults_witness :
    maintenance_note_from_row ⟨none, none, none, none, none⟩ DEFAULT_LIMITS
      = tip_healthy :=
  maintenance_note_absent_defaults ⟨none, none, none, none, none⟩
    rfl rfl rfl rfl (by simp)

/-- Arithmetic mean of a list of TDS readings, as `np.mean` on a nonempty
list (src/app.py line 537). -/
def mean (l : List ℚ) : ℚ := l.sum / l.length

/-- Recursive worker for the stage-average loop (src/app.py lines 532-542).
The accumulator `prev` carries the stored `avg_tds` of the stage processed
just before the current one (None when that stage had no vessel data), and
`first` marks stage 1, whose upstream is the feed TDS. Each stage yields the
pair (avg_tds, rejection_pct) stored in the `stage_avg` dict. -/
def stage_avg_go (feed_tds : ℚ) (first : Bool) (prev : Option ℚ) :
    List (List ℚ) → List (Option ℚ × Option ℚ)
  | [] => []
  | vals :: rest =>
      if vals.isEmpty then (none, none) :: stage_avg_go feed_tds false none rest
      else
        let avg := mean vals
        let up : Option ℚ := if first then some feed_tds else prev
        (some avg, kpi_rejection_pct (some avg) up)
          :: stage_avg_go feed_tds false (some avg) rest

/-- Model of the `stage_avg` dict (src/app.py lines 532-542): stage entries
in order, one per stage, with the vessel TDS readings grouped per stage. -/
def stage_avg (feed_tds : ℚ) (stages : List (List ℚ)) :
    List (Option ℚ × Option ℚ) :=
  stage_avg_go feed_tds true none stages

/-- Model of the per-vessel upstream (src/app.py line 552): feed TDS for
stage 1, else `stage_avg[s-1]["avg_tds"] or feed_tds` — the Python `or`
falls back to the feed TDS whenever the previous stage average is absent or
equal to 0, skipping any earlier stage that has data. -/
def per_vessel_upstream (feed_tds : ℚ) (sa : List (Option ℚ × Option ℚ))
    (s : ℕ) : ℚ :=
  if s = 1 then feed_tds else py_or (sa.getD (s - 2) (none, none)).1 feed_tds

/-- Model of the per-vessel rejection entry (src/app.py lines 553-554). -/
def per_vessel_rejection (feed_tds : ℚ) (sa : List (Option ℚ × Option ℚ))
    (s : ℕ) (tds : ℚ) : Option ℚ :=
  kpi_rejection_pct (some tds) (some (per_vessel_upstream feed_tds sa s))

/-- The upstream reference policy as the specification words it: the nearest
earlier stage whose average TDS is defined, else the feed TDS. Written from
the spec for comparison with the code's behaviour. -/
def spec_upstream (feed_tds : ℚ) (stages : List (List ℚ)) (k : ℕ) : ℚ :=
  match ((stages.take (k - 1)).reverse).find? (fun l => !l.isEmpty) with
  | some l => mean l
  | none => feed_tds

/-- Claim C1 counterexample: with feed TDS 1000, stage-1 readings [100],
no stage-2 readings and stage-3 readings [10], the spec policy scores stage
3 against stage 1's average 100, but the code leaves stage 3's stage
rejection undefined (upstream None, no fallback) while scoring stage 3's
vessels directly against the feed TDS 1000 — two different upstream values,
neither equal to the claimed one. -/
theorem stage_upstream_counterexample :
    (stage_avg 1000 [[100], [], [10]]).getD 2 (none, none) = (some 10, none)
    ∧ per_vessel_upstream 1000 (stage_avg 1000 [[100], [], [10]]) 3 = 1000
    ∧ spec_upstream 1000 [[100], [], [10]] 3 = 100
    ∧ per_vessel_upstream 1000 (stage_avg 1000 [[100], [], [10]]) 3
        ≠ spec_upstream 1000 [[100], [], [10]] 3
    ∧ kpi_rejection_pct (some 10) (some (spec_upstream 1000 [[100], [], [10]] 3))
        = some 90
    ∧ ((stage_avg 1000 [[100], [], [10]]).getD 2 (none, none)).2 ≠ some 90 := by
  have hsa : stage_avg 1000 [[100], [], [10]]
      = [(some 100, some 90), (none, none), (some 10, none)] := by
    simp only [stage_avg, stage_avg_go, mean, kpi_rejection_pct]
    norm_num
  have hspec : spec_upstream 1000 [[100], [], [10]] 3 = 100 := by
    simp only [spec_upstream, List.take, List.reverse, List.find?, mean]
    norm_num
  refine ⟨by rw [hsa]; rfl, ?_, hspec, ?_, ?_, ?_⟩
  · rw [hsa]
    simp [per_vessel_upstream, py_or]
  · rw [hsa, hspec]
    simp [per_vessel_upstream, py_or]
  · rw [hspec]
    simp only [kpi_rejection_pct]
    norm_num
  · rw [hsa]
    simp

/-- Helper: the stage worker produces one output entry per stage. -/
theorem stage_avg_go_length (feed_tds : ℚ) (first : Bool) (prev : Option ℚ)
    (l : List (List ℚ)) : (stage_avg_go feed_tds first prev l).length = l.length := by
  induction l generalizing first prev with
  | nil => rfl
  | cons vals rest ih =>
      by_cases h : vals.isEmpty <;>
        simp [stage_avg_go, h, ih]

/-- Helper: the head entry of the worker on a later stage (first = false)
has its rejection computed from its own average and the accumulator. -/
theorem stage_avg_go_head (feed_tds : ℚ) (prev : Option ℚ)
    (l : List (List ℚ)) (hl : l ≠ []) :
    ((stage_avg_go feed_tds false prev l).getD 0 (none, none)).2
      = kpi_rejection_pct
          ((stage_avg_go feed_tds false prev l).getD 0 (none, none)).1 prev := by
  cases l with
  | nil => exact absurd rfl hl
  | cons vals rest =>
      by_cases h : vals.isEmpty
      · simp [stage_avg_go, h, kpi_rejection_pct]
      · simp [stage_avg_go, h]

/-- Helper: each later entry of the worker output is the rejection of its
own average against the stored average of the entry right before it. -/
theorem stage_avg_go_entry (feed_tds : ℚ) (first : Bool) (prev : Option ℚ)
    (l : List (List ℚ)) (i : ℕ) (hi : i + 1 < l.length) :
    ((stage_avg_go feed_tds first prev l).getD (i + 1) (none, none)).2
      = kpi_rejection_pct
          ((stage_avg_go feed_tds first prev l).getD (i + 1) (none, none)).1
          ((stage_avg_go feed_tds first prev l).getD i (none, none)).1 := by
  induction l generalizing first prev i with
  | nil => simp at hi
  | cons vals rest ih =>
      have hrest : rest ≠ [] := by
        intro h
        rw [h] at hi
        simp at hi
      by_cases h : vals.isEmpty
      · cases i with
        | zero =>
            simpa [stage_avg_go, h] using
              stage_avg_go_head feed_tds none rest hrest
        | succ j =>
            have hj : j + 1 < rest.length := by
              simpa using hi
            simpa [stage_avg_go, h] using ih false none j hj
      · cases i with
        | zero =>
            simpa [stage_avg_go, h] using
              stage_avg_go_head feed_tds (some (mean vals)) rest hrest
        | succ j =>
            have hj : j + 1 < rest.length := by
              simpa using hi
            simpa [stage_avg_go, h] using ih false (some (mean vals)) j hj

/-- Claim C1, amended: for every stage k >= 2 within range, the stage
rejection stored for stage k is computed against stage k-1's stored average
TDS exactly (undefined average gives an undefined rejection — there is no
fallback to an earlier stage or to the feed for the stage rejection), while
every vessel of stage k is scored against stage k-1's stored average when it
is defined and nonzero and directly against the feed TDS otherwise; the two
upstream references agree whenever stage k-1's average is defined and
nonzero. -/
theorem stage_upstream_amended (feed_tds : ℚ) (stages : List (List ℚ))
    (k : ℕ) (hk : 2 ≤ k) (hlen : k ≤ stages.length) :
    ((stage_avg feed_tds stages).getD (k - 1) (none, none)).2
      = kpi_rejection_pct
          ((stage_avg feed_tds stages).getD (k - 1) (none, none)).1
          ((stage_avg feed_tds stages).getD (k - 2) (none, none)).1
    ∧ per_vessel_upstream feed_tds (stage_avg feed_tds stages) k
        = py_or ((stage_avg feed_tds stages).getD (k - 2) (none, none)).1 feed_tds
    ∧ (∀ v : ℚ, ((stage_avg feed_tds stages).getD (k - 2) (none, none)).1 = some v →
        v ≠ 0 → per_vessel_upstream feed_tds (stage_avg feed_tds stages) k = v) := by
  have hk1 : k - 1 = (k - 2) + 1 := by omega
  have hi : (k - 2) + 1 < stages.length := by omega
  have hne : k ≠ 1 := by omega
  refine ⟨?_, ?_, ?_⟩
  · rw [hk1]
    exact stage_avg_go_entry feed_tds true none stages (k - 2) hi
  · simp [per_vessel_upstream, hne]
  · intro v hv hv0
    simp only [per_vessel_upstream, if_neg hne]
    rw [hv]
    simp [py_or, hv0]

/-- Claim C1 witness for the amended theorem: the stage-3 rejection of the
counterexample configuration is computed against stage 2's (absent) stored
average. -/
theorem stage_upstream_amended_witness :
    ((stage_avg 1000 [[100], [], [10]]).getD 2 (none, none)).2
      = kpi_rejection_pct
          ((stage_avg 1000 [[100], [], [10]]).getD 2 (none, none)).1
          ((stage_avg 1000 [[100], [], [10]]).getD 1 (none, none)).1 :=
  (stage_upstream_amended 1000 [[100], [], [10]] 3 (by norm_num) (by norm_num)).1

/-- One stored daily record of the per-plant CSV series: its calendar date
string (format YYYY-MM-DD, whose lexicographic order is chronological) and
the remaining computed columns, abstracted as one payload value. -/
structure DailyRow where
  date : String
  payload : ℚ
deriving DecidableEq

/-- Comparison of daily rows by their date key, as `sort_values("date")`. -/
def dateLe (a b : DailyRow) : Prop := a.date ≤ b.date

instance : DecidableRel dateLe :=
  fun a b => inferInstanceAs (Decidable (a.date ≤ b.date))

instance : IsTotal DailyRow dateLe := ⟨fun a b => le_total a.date b.date⟩

instance : IsTrans DailyRow dateLe := ⟨fun _ _ _ h1 h2 => le_trans h1 h2⟩

/-- Model of the save/merge step (src/app.py lines 608-615): drop every old
row carrying the new row's date, append the new row, and sort by date. -/
def df_all (df_old : List DailyRow) (row : DailyRow) : List DailyRow :=
  List.insertionSort dateLe
    ((df_old.filter (fun x => x.date != row.date)) ++ [row])

/-- Claim C8: saving a computed daily row into a series whose dates are
pairwise distinct yields a series with pairwise-distinct dates, in which the
saved date occurs exactly once — carrying the new row (upsert, never a
duplicate) — and which is ordered by date. -/
theorem daily_upsert_invariant (df_old : List DailyRow) (row : DailyRow)
    (hpw : df_old.Pairwise (fun a b => a.date ≠ b.date)) :
    (df_all df_old row).Pairwise (fun a b => a.date ≠ b.date)
    ∧ (df_all df_old row).filter (fun x => x.date == row.date) = [row]
    ∧ List.Sorted dateLe (df_all df_old row) := by
  have hperm : (df_all df_old row).Perm
      ((df_old.filter (fun x => x.date != row.date)) ++ [row]) :=
    List.perm_insertionSort dateLe _
  refine ⟨?_, ?_, ?_⟩
  · have h1 : (df_old.filter (fun x => x.date != row.date)).Pairwise
        (fun a b => a.date ≠ b.date) :=
      hpw.sublist (List.filter_sublist df_old)
    have h2 : ∀ a ∈ df_old.filter (fun x => x.date != row.date),
        ∀ b ∈ [row], a.date ≠ b.date := by
      intro a ha b hb
      have hane := (List.mem_filter.mp ha).2
      rw [List.mem_singleton] at hb
      subst hb
      simpa [bne_iff_ne] using hane
    have hall : ((df_old.filter (fun x => x.date != row.date)) ++ [row]).Pairwise
        (fun a b => a.date ≠ b.date) :=
      List.pairwise_append.mpr ⟨h1, List.pairwise_singleton _ _, h2⟩
    exact (hperm.pairwise_iff (fun hab => Ne.symm hab)).mpr hall
  · have hf := hperm.filter (fun x => x.date == row.date)
    have hval : ((df_old.filter (fun x => x.date != row.date)) ++ [row]).filter
        (fun x => x.date == row.date) = [row] := by
      rw [List.filter_append]
      have h0 : (df_old.filter (fun x => x.date != row.date)).filter
          (fun x => x.date == row.date) = [] := by
        refine List.filter_eq_nil_iff.mpr ?_
        intro a ha
        have hane := (List.mem_filter.mp ha).2
        simp only [bne_iff_ne, ne_eq, decide_eq_true_eq] at hane
        simp [hane]
      have h1 : ([row] : List DailyRow).filter (fun x => x.date == row.date)
          = [row] := by simp
      rw [h0, h1, List.nil_append]
    rw [hval] at hf
    exact List.perm_singleton.mp hf
  · exact List.sorted_insertionSort dateLe _

/-- Claim C8 witness: upserting a row for an existing date into a concrete
two-row series keeps exactly one row for that date, carrying the new data. -/
theorem daily_upsert_invariant_witness :
    (df_all [DailyRow.mk "2024-01-01" 1, DailyRow.mk "2024-01-02" 2]
        (DailyRow.mk "2024-01-02" 5)).filter
      (fun x => x.date == "2024-01-02") = [DailyRow.mk "2024-01-02" 5] :=
  (daily_upsert_invariant
    [DailyRow.mk "2024-01-01" 1, DailyRow.mk "2024-01-02" 2]
    (DailyRow.mk "2024-01-02" 5) (by simp)).2.1

/-- Modelled from the spec: the Max-Safe-Output Solver of section 4.2 is not
present under src/ (only the `runs` table of src/db.py declares its output
columns reject_tds and cf), so it is written from the spec's words: with
denom = product_tds/feed_tds - CFmax, a feasible solution requires
denom < 0, giving Qp = feed_flow*(1-CFmax)/denom clamped to [0, feed_flow]
and Qr = feed_flow - Qp, with reject_tds recomputed by the section 4.1 mass
balance; denom >= 0 yields the advisory no-headroom triple
(0, feed_flow, feed_tds). -/
def max_safe_output (feed_tds product_tds feed_flow cf_max : ℚ) :
    ℚ × ℚ × ℚ :=
  let denom := product_tds / feed_tds - cf_max
  if denom < 0 then
    let qp := max 0 (min feed_flow (feed_flow * (1 - cf_max) / denom))
    let qr := feed_flow - qp
    let reject_tds :=
      if 0 < qr then (feed_tds * feed_flow - product_tds * qp) / qr
      else feed_tds
    (qp, qr, reject_tds)
  else (0, feed_flow, feed_tds)

/-- Claim C4: for feed_tds > 0 the solver returns the clamped
Qp = feed_flow*(1-CFmax)/denom with Qr = feed_flow - Qp when denom < 0, and
the advisory no-headroom triple (0, feed_flow, feed_tds) (not an error) when
denom >= 0; at feed_tds=1000, product_tds=50, feed_flow=200, CFmax=2.5 the
result is Qp = 6000/49 (approximately 122.45, within 0.01) and
Qr = feed_flow - Qp. -/
theorem max_safe_output_spec :
    (∀ ft pt ff cf : ℚ, 0 < ft →
      (pt / ft - cf < 0 →
        (max_safe_output ft pt ff cf).1
            = max 0 (min ff (ff * (1 - cf) / (pt / ft - cf)))
        ∧ (max_safe_output ft pt ff cf).2.1
            = ff - (max_safe_output ft pt ff cf).1)
      ∧ (0 ≤ pt / ft - cf → max_safe_output ft pt ff cf = (0, ff, ft)))
    ∧ (max_safe_output 1000 50 200 (5/2)).1 = 6000/49
    ∧ |(max_safe_output 1000 50 200 (5/2)).1 - 12245/100| < 1/100
    ∧ (max_safe_output 1000 50 200 (5/2)).2.1 = 200 - 6000/49 := by
  have hconc : max_safe_output 1000 50 200 (5/2)
      = (6000/49, 200 - 6000/49, (1000 * 200 - 50 * (6000/49)) / (200 - 6000/49)) := by
    simp only [max_safe_output]
    norm_num
  refine ⟨fun ft pt ff cf hft => ⟨fun hd => ?_, fun hd => ?_⟩, ?_, ?_, ?_⟩
  · simp only [max_safe_output, if_pos hd]
    exact ⟨trivial, trivial⟩
  · simp only [max_safe_output, if_neg (not_lt.mpr hd)]
  · rw [hconc]
  · rw [hconc]
    norm_num [abs_lt]
  · rw [hconc]

/-- Claim C4 witness: the feasible branch applied at the spec's worked
example, whose denominator is negative. -/
theorem max_safe_output_spec_witness :
    (max_safe_output 1000 50 200 (5/2)).1
        = max 0 (min 200 (200 * (1 - 5/2) / ((50 : ℚ)/1000 - 5/2)))
    ∧ (max_safe_output 1000 50 200 (5/2)).2.1
        = 200 - (max_safe_output 1000 50 200 (5/2)).1 :=
  (max_safe_output_spec.1 1000 50 200 (5/2) (by norm_num)).1 (by norm_num)

/-- Sum of the index positions 0..n-1 used as the x axis of the fit. -/
def Sx (n : ℕ) : ℚ := ∑ i in Finset.range n, (i : ℚ)

/-- Sum of the squared index positions 0..n-1. -/
def Sxx (n : ℕ) : ℚ := ∑ i in Finset.range n, (i : ℚ) ^ 2

/-- Sum of the history values. -/
def Sy (values : List ℚ) : ℚ :=
  ∑ i in Finset.range values.length, values.getD i 0

/-- Sum of index-value products of the history. -/
def Sxy (values : List ℚ) : ℚ :=
  ∑ i in Finset.range values.length, (i : ℚ) * values.getD i 0

/-- Determinant of the least-squares normal equations over x = 0..n-1. -/
def lsD (n : ℕ) : ℚ := n * Sxx n - (Sx n) ^ 2

/-- Slope of the degree-1 least-squares fit computed by `np.polyfit(x, y, 1)`
(src/app.py line 880) over index positions 0..n-1. -/
def polyfit_m (values : List ℚ) : ℚ :=
  (values.length * Sxy values - Sx values.length * Sy values)
    / lsD values.length

/-- Intercept of the degree-1 least-squares fit of `np.polyfit(x, y, 1)`. -/
def polyfit_b (values : List ℚ) : ℚ :=
  (Sy values - polyfit_m values * Sx values.length) / values.length

/-- Sum of squared residuals of the line y = m*x + b over the history. -/
def sse (values : List ℚ) (m b : ℚ) : ℚ :=
  ∑ i in Finset.range values.length, (m * i + b - values.getD i 0) ^ 2

/-- Model of `linear_forecast_next` (src/app.py lines 876-883): with fewer
than 2 points, the last value (0.0 for an empty history) is repeated for
the horizon; otherwise the least-squares line over index positions 0..n-1
is evaluated at positions n..n+horizon-1. -/
def linear_forecast_next (values : List ℚ) (horizon_days : ℕ) : List ℚ :=
  if values.length < 2 then List.replicate horizon_days (values.getLastD 0)
  else
    (List.range horizon_days).map
      (fun k => polyfit_m values * ((values.length : ℚ) + (k : ℚ))
        + polyfit_b values)

/-- The crossing test of `next_crossing_day` (src/app.py line 887):
strictly above the threshold when `above`, strictly below otherwise. -/
def qualifies (v threshold : ℚ) (above : Bool) : Bool :=
  if above then decide (threshold < v) else decide (v < threshold)

/-- Model of `next_crossing_day` (src/app.py lines 885-888): the index of
the first qualifying forecast value, None when the scan finds none. -/
def next_crossing_day : List ℚ → ℚ → Bool → Option ℕ
  | [], _, _ => none
  | v :: rest, threshold, above =>
      if qualifies v threshold above then some 0
      else (next_crossing_day rest threshold above).map (fun i => i + 1)

/-- Closed form of the index sum. -/
theorem Sx_closed (n : ℕ) : Sx n = (n : ℚ) * (n - 1) / 2 := by
  induction n with
  | zero => simp [Sx]
  | succ k ih =>
      rw [Sx, Finset.sum_range_succ, ← Sx, ih]
      push_cast
      ring

/-- Closed form of the squared-index sum. -/
theorem Sxx_closed (n : ℕ) : Sxx n = (n : ℚ) * (n - 1) * (2 * n - 1) / 6 := by
  induction n with
  | zero => simp [Sxx]
  | succ k ih =>
      rw [Sxx, Finset.sum_range_succ, ← Sxx, ih]
      push_cast
      ring

/-- Closed form of the normal-equation determinant. -/
theorem lsD_closed (n : ℕ) : lsD n = (n : ℚ) ^ 2 * (n - 1) * (n + 1) / 12 := by
  rw [lsD, Sx_closed, Sxx_closed]
  ring

/-- The determinant is positive for histories of at least two points, so the
least-squares line is well defined and unique. -/
theorem lsD_pos (n : ℕ) (h : 2 ≤ n) : 0 < lsD n := by
  rw [lsD_closed]
  have hn : (2 : ℚ) ≤ (n : ℚ) := by exact_mod_cast h
  have h0 : (0 : ℚ) < (n : ℚ) := by linarith
  have h1 : (0 : ℚ) < (n : ℚ) - 1 := by linarith
  have h2 : (0 : ℚ) < (n : ℚ) + 1 := by linarith
  have := mul_pos (mul_pos (pow_pos h0 2) h1) h2
  linarith

/-- Residual sum in terms of the moment sums. -/
theorem sum_resid_eq (values : List ℚ) (m b : ℚ) :
    ∑ i in Finset.range values.length, (m * i + b - values.getD i 0)
      = m * Sx values.length + values.length * b - Sy values := by
  simp only [Finset.sum_sub_distrib, Finset.sum_add_distrib, Finset.sum_const,
    Finset.card_range, nsmul_eq_mul, ← Finset.mul_sum, Sx, Sy]

/-- Index-weighted residual sum in terms of the moment sums. -/
theorem sum_xresid_eq (values : List ℚ) (m b : ℚ) :
    ∑ i in Finset.range values.length, (i : ℚ) * (m * i + b - values.getD i 0)
      = m * Sxx values.length + b * Sx values.length - Sxy values := by
  have hexp : ∀ i ∈ Finset.range values.length,
      (i : ℚ) * (m * i + b - values.getD i 0)
        = m * (i : ℚ) ^ 2 + b * i - (i : ℚ) * values.getD i 0 :=
    fun i _ => by ring
  rw [Finset.sum_congr rfl hexp]
  simp only [Finset.sum_sub_distrib, Finset.sum_add_distrib, ← Finset.mul_sum,
    Sxx, Sx, Sxy]

/-- First normal equation: the fitted residuals sum to zero. -/
theorem normal_sum (values : List ℚ) (h2 : 2 ≤ values.length) :
    ∑ i in Finset.range values.length,
      (polyfit_m values * i + polyfit_b values - values.getD i 0) = 0 := by
  have hn : (values.length : ℚ) ≠ 0 := Nat.cast_ne_zero.mpr (by omega)
  rw [sum_resid_eq]
  unfold polyfit_b
  field_simp

/-- Second normal equation: the index-weighted fitted residuals sum to
zero. -/
theorem normal_xsum (values : List ℚ) (h2 : 2 ≤ values.length) :
    ∑ i in Finset.range values.length,
      (i : ℚ) * (polyfit_m values * i + polyfit_b values - values.getD i 0)
        = 0 := by
  have hn : (values.length : ℚ) ≠ 0 := Nat.cast_ne_zero.mpr (by omega)
  have hD : lsD values.length ≠ 0 := (lsD_pos values.length h2).ne'
  rw [sum_xresid_eq]
  unfold polyfit_b polyfit_m
  unfold lsD at hD ⊢
  field_simp
  ring

/-- The closed-form fit minimises the sum of squared residuals: it is the
ordinary least-squares line. -/
theorem sse_optimal (values : List ℚ) (h2 : 2 ≤ values.length)
    (m2 b2 : ℚ) :
    sse values (polyfit_m values) (polyfit_b values) ≤ sse values m2 b2 := by
  have e1 := normal_sum values h2
  have e2 := normal_xsum values h2
  have hdiff : sse values m2 b2
      - sse values (polyfit_m values) (polyfit_b values)
      = ∑ i in Finset.range values.length,
          ((m2 - polyfit_m values) * i + (b2 - polyfit_b values)) ^ 2 := by
    unfold sse
    rw [← Finset.sum_sub_distrib]
    have hexp : ∀ i ∈ Finset.range values.length,
        (m2 * i + b2 - values.getD i 0) ^ 2
          - (polyfit_m values * i + polyfit_b values - values.getD i 0) ^ 2
        = ((m2 - polyfit_m values) * i + (b2 - polyfit_b values)) ^ 2
          + (2 * (m2 - polyfit_m values))
              * ((i : ℚ) * (polyfit_m values * i + polyfit_b values
                  - values.getD i 0))
          + (2 * (b2 - polyfit_b values))
              * (polyfit_m values * i + polyfit_b values - values.getD i 0) :=
      fun i _ => by ring
    rw [Finset.sum_congr rfl hexp]
    simp only [Finset.sum_add_distrib, ← Finset.mul_sum]
    rw [e1, e2]
    ring
  have hnn : 0 ≤ ∑ i in Finset.range values.length,
      ((m2 - polyfit_m values) * i + (b2 - polyfit_b values)) ^ 2 :=
    Finset.sum_nonneg fun i _ => sq_nonneg _
  linarith

/-- Helper: a successful crossing scan returns the first qualifying index. -/
theorem next_crossing_day_some (fut : List ℚ) (thr : ℚ) (ab : Bool) :
    ∀ i, next_crossing_day fut thr ab = some i →
      i < fut.length ∧ qualifies (fut.getD i 0) thr ab = true
      ∧ ∀ j < i, qualifies (fut.getD j 0) thr ab = false := by
  induction fut with
  | nil => intro i hi; simp [next_crossing_day] at hi
  | cons v rest ih =>
      intro i hi
      by_cases hq : qualifies v thr ab = true
      · simp only [next_crossing_day, if_pos hq] at hi
        injection hi with h0
        subst h0
        exact ⟨by simp, by simpa using hq, fun j hj => absurd hj (by omega)⟩
      · simp only [next_crossing_day, if_neg hq] at hi
        rw [Option.map_eq_some'] at hi
        obtain ⟨i0, hi0, rfl⟩ := hi
        obtain ⟨hlt, hqual, hfirst⟩ := ih i0 hi0
        refine ⟨by simpa using Nat.succ_lt_succ hlt, by simpa using hqual, ?_⟩
        intro j hj
        cases j with
        | zero => simpa using Bool.not_eq_true _ |>.mp hq
        | succ j0 =>
            have : j0 < i0 := by omega
            simpa using hfirst j0 this
  
/-- Helper: a scan returning None found no qualifying value. -/
theorem next_crossing_day_none (fut : List ℚ) (thr : ℚ) (ab : Bool) :
    next_crossing_day fut thr ab = none →
      ∀ j < fut.length, qualifies (fut.getD j 0) thr ab = false := by
  induction fut with
  | nil => intro _ j hj; simp at hj
  | cons v rest ih =>
      intro hnone j hj
      by_cases hq : qualifies v thr ab = true
      · simp only [next_crossing_day, if_pos hq] at hnone
        exact absurd hnone (by simp)
      · simp only [next_crossing_day, if_neg hq] at hnone
        rw [Option.map_eq_none'] at hnone
        cases j with
        | zero => simpa using Bool.not_eq_true _ |>.mp hq
        | succ j0 =>
            have : j0 < rest.length := by simpa using hj
            simpa using ih hnone j0 this

/-- The fitted slope of the worked example series is 1. -/
theorem polyfit_m_example : polyfit_m [1, 2, 3, 4, 5] = 1 := by
  norm_num [polyfit_m, Sxy, Sy, Sx, lsD, Sxx, Finset.sum_range_succ]

/-- The fitted intercept of the worked example series is 1. -/
theorem polyfit_b_example : polyfit_b [1, 2, 3, 4, 5] = 1 := by
  norm_num [polyfit_b, polyfit_m, Sxy, Sy, Sx, lsD, Sxx, Finset.sum_range_succ]

/-- The worked example forecast is the sequence 6, 7, 8, ... over the
horizon. -/
theorem forecast_example :
    linear_forecast_next [1, 2, 3, 4, 5] 30
      = (List.range 30).map (fun k => 6 + (k : ℚ)) := by
  unfold linear_forecast_next
  rw [if_neg (by norm_num)]
  rw [polyfit_m_example, polyfit_b_example]
  apply List.map_congr_left
  intro a _
  simp only [List.length_cons, List.length_nil]
  push_cast
  ring

/-- The worked example forecast, written out. -/
theorem forecast_example_list :
    linear_forecast_next [1, 2, 3, 4, 5] 30
      = [6, 7, 8, 9, 10, 11, 12, 13, 14, 15, 16, 17, 18, 19, 20, 21, 22, 23,
         24, 25, 26, 27, 28, 29, 30, 31, 32, 33, 34, 35] := by
  rw [forecast_example]
  norm_num [List.range_succ]

/-- Claim C5: for a history of at least two points the Trend Forecaster
extrapolates the ordinary least-squares line over index positions 0..n-1
(the fitted pair minimises the sum of squared residuals) at positions
n..n+horizon-1; the crossing scan returns the first index whose value is
strictly above (direction above) or strictly below (direction below) the
threshold, and None when no forecast value qualifies; for the series
[1,2,3,4,5] with threshold 10 and direction above, the forecast is
6, 7, 8, ... and the first crossing is at step index 5, with value 11. -/
theorem linear_forecast_spec :
    (∀ (values : List ℚ) (horizon_days : ℕ), 2 ≤ values.length →
       (∀ m2 b2 : ℚ,
          sse values (polyfit_m values) (polyfit_b values) ≤ sse values m2 b2)
       ∧ linear_forecast_next values horizon_days
           = (List.range horizon_days).map
               (fun k => polyfit_m values * ((values.length : ℚ) + (k : ℚ))
                 + polyfit_b values))
    ∧ (∀ (fut : List ℚ) (thr : ℚ) (ab : Bool),
         (∀ i, next_crossing_day fut thr ab = some i →
            i < fut.length ∧ qualifies (fut.getD i 0) thr ab = true
            ∧ ∀ j < i, qualifies (fut.getD j 0) thr ab = false)
         ∧ (next_crossing_day fut thr ab = none →
              ∀ j < fut.length, qualifies (fut.getD j 0) thr ab = false))
    ∧ linear_forecast_next [1, 2, 3, 4, 5] 30
        = (List.range 30).map (fun k => 6 + (k : ℚ))
    ∧ next_crossing_day (linear_forecast_next [1, 2, 3, 4, 5] 30) 10 true
        = some 5
    ∧ (linear_forecast_next [1, 2, 3, 4, 5] 30).getD 5 0 = 11 := by
  refine ⟨fun values horizon_days h2 => ⟨sse_optimal values h2, ?_⟩,
          fun fut thr ab => ⟨next_crossing_day_some fut thr ab,
            next_crossing_day_none fut thr ab⟩,
          forecast_example, ?_, ?_⟩
  · unfold linear_forecast_next
    rw [if_neg (Nat.not_lt.mpr h2)]
  · rw [forecast_example_list]
    decide
  · rw [forecast_example_list]
    decide

/-- Claim C5 witness: the least-squares optimality applied to the worked
example series against the competing line y = 2x. -/
theorem linear_forecast_spec_witness :
    sse [1, 2, 3, 4, 5] (polyfit_m [1, 2, 3, 4, 5]) (polyfit_b [1, 2, 3, 4, 5])
      ≤ sse [1, 2, 3, 4, 5] 2 0 :=
  ((linear_forecast_spec.1 [1, 2, 3, 4, 5] 30 (by norm_num)).1) 2 0

/-- Claim C6: with fewer than two points the forecast is the horizon-long
constant repetition of the history's last value (0.0 for an empty history),
a defined result rather than a failure. -/
theorem linear_forecast_insufficient_history :
    ∀ (values : List ℚ) (horizon_days : ℕ), values.length < 2 →
      linear_forecast_next values horizon_days
        = List.replicate horizon_days (values.getLastD 0) := by
  intro values horizon_days hlt
  unfold linear_forecast_next
  rw [if_pos hlt]

/-- Claim C6 witness: a one-point history repeats its value and the empty
history repeats 0. -/
theorem linear_forecast_insufficient_history_witness :
    linear_forecast_next [4] 7 = List.replicate 7 (4 : ℚ)
    ∧ linear_forecast_next [] 7 = List.replicate 7 (0 : ℚ) :=
  ⟨linear_forecast_insufficient_history [4] 7 (by norm_num),
   linear_forecast_insufficient_history [] 7 (by norm_num)⟩
